import Mathlib

/-!
Shallow embedding of the slideshow-processor repository (TypeScript sources
under src/) together with proofs about its layout-eligibility, crop-cost,
orientation, deduplication, sharding and retry-reporting logic.

JavaScript numbers are modelled as rationals; machine floating point is not
modelled, all arithmetic in the embedded functions is exact.
-/

namespace SlideshowProcessor

/-- Orientation values returned by src/processor-v2.ts determineOrientation. -/
inductive Orientation where
  | portrait
  | landscape
  | square
deriving DecidableEq, Repr

/-- The string the code stores for an orientation value. -/
def orientationString : Orientation → String
  | Orientation.portrait => "portrait"
  | Orientation.landscape => "landscape"
  | Orientation.square => "square"

/-- Embeds determineOrientation (src/processor-v2.ts lines 145-149). -/
def determineOrientation (width height : ℚ) : Orientation :=
  let ratio := width / height
  if |ratio - 1| < 0.05 then Orientation.square
  else if width > height then Orientation.landscape else Orientation.portrait

/-- Embeds calculateCropPercentage (src/processor-v2.ts lines 154-178). -/
def calculateCropPercentage (sourceWidth sourceHeight targetWidth targetHeight : ℚ) : ℚ :=
  let sourceRatio := sourceWidth / sourceHeight
  let targetRatio := targetWidth / targetHeight
  if |sourceRatio - targetRatio| < 0.001 then 0
  else if sourceRatio > targetRatio then
    let usedWidth := targetHeight * sourceRatio
    let croppedWidth := usedWidth - targetWidth
    croppedWidth / usedWidth * 100
  else
    let usedHeight := targetWidth / sourceRatio
    let croppedHeight := usedHeight - targetHeight
    croppedHeight / usedHeight * 100

/-- The crop-cost function exactly as worded in the spec (for comparison with
calculateCropPercentage in the code). -/
def cropCostPercentSpec (srcW srcH dstW dstH : ℚ) : ℚ :=
  let sr := srcW / srcH
  let dr := dstW / dstH
  if |sr - dr| < 0.001 then 0
  else if sr > dr then
    let usedWidth := dstH * sr
    (usedWidth - dstW) / usedWidth * 100
  else
    let usedHeight := dstW / sr
    (usedHeight - dstH) / usedHeight * 100

/-- A device layout entry (src/processor-v2.ts DeviceDimensions.layouts).
The divider and preferredAspectRatios fields are never read by the embedded
operations and are omitted. -/
structure Layout where
  type : String
  width : ℚ
  height : ℚ
  minAspectRatio : Option ℚ
  maxAspectRatio : Option ℚ
deriving DecidableEq, Repr

/-- A layout candidate produced by evaluateImageLayouts. -/
structure LayoutCandidate where
  layoutType : String
  width : ℚ
  height : ℚ
  cropPercentage : ℚ
deriving DecidableEq, Repr

/-- The aspect-ratio eligibility test of the loop body of evaluateImageLayouts
(src/processor-v2.ts lines 196-203): a layout is skipped when its
minAspectRatio is defined and the image ratio is below it, or its
maxAspectRatio is defined and the image ratio is above it. -/
def passesAspect (imageRatio : ℚ) (l : Layout) : Bool :=
  !(match l.minAspectRatio with
    | some m => decide (imageRatio < m)
    | none => false) &&
  !(match l.maxAspectRatio with
    | some m => decide (imageRatio > m)
    | none => false)

/-- The candidate record pushed for an eligible layout
(src/processor-v2.ts lines 205-218). -/
def mkCandidate (imageWidth imageHeight : ℚ) (l : Layout) : LayoutCandidate :=
  { layoutType := l.type
    width := l.width
    height := l.height
    cropPercentage := calculateCropPercentage imageWidth imageHeight l.width l.height }

/-- Comparison used by the final sort of evaluateImageLayouts
(src/processor-v2.ts line 222, the comparator a.cropPercentage - b.cropPercentage):
JavaScript Array.prototype.sort is a stable ascending sort for this comparator,
modelled by the stable mergeSort with this boolean order. -/
def candidateLE (a b : LayoutCandidate) : Bool :=
  decide (a.cropPercentage ≤ b.cropPercentage)

/-- Embeds evaluateImageLayouts (src/processor-v2.ts lines 183-225). -/
def evaluateImageLayouts (imageWidth imageHeight : ℚ) (layouts : List Layout) :
    List LayoutCandidate :=
  if layouts.isEmpty then []
  else
    let imageRatio := imageWidth / imageHeight
    let eligible := (layouts.filter (passesAspect imageRatio)).map
      (mkCandidate imageWidth imageHeight)
    eligible.mergeSort candidateLE

/-- A device geometry as passed to processSourceV2
(src/processor-v2.ts DeviceDimensions). -/
structure Device where
  width : ℚ
  height : ℚ
  orientation : String
  layouts : Option (List Layout)
deriving DecidableEq, Repr

/-- Processing status of a result (src/processor-v2.ts ProcessingResult.status). -/
inductive Status where
  | processed
  | duplicate
deriving DecidableEq, Repr

/-- A rendered variant record (src/processor-v2.ts lines 303-310 and 331-338).
The storage path and byte size depend on external I/O and are omitted. -/
structure Variant where
  width : ℚ
  height : ℚ
  orientation : String
  layout_type : String
deriving DecidableEq, Repr

/-- The result record of processSourceV2 restricted to the fields the claims
are about (status and variants). -/
structure ProcessingResult where
  status : Status
  variants : List Variant
deriving DecidableEq, Repr

/-- Variant record produced by the layout rendering path
(src/processor-v2.ts lines 303-310). -/
def layoutVariant (c : LayoutCandidate) : Variant :=
  { width := c.width
    height := c.height
    orientation := orientationString (determineOrientation c.width c.height)
    layout_type := c.layoutType }

/-- Variant record produced by the legacy path for a device with no layouts
(src/processor-v2.ts lines 331-338). -/
def legacyVariant (d : Device) : Variant :=
  { width := d.width
    height := d.height
    orientation := d.orientation
    layout_type := "single" }

/-- The variants that processSourceV2 produces for one device
(src/processor-v2.ts lines 281-345), with every render modelled as
succeeding. -/
def variantsForDevice (width height : ℚ) (d : Device) : List Variant :=
  match d.layouts with
  | some ls =>
    if 0 < ls.length then (evaluateImageLayouts width height ls).map layoutVariant
    else [legacyVariant d]
  | none => [legacyVariant d]

/-- The resize requests (target width and height) processSourceV2 issues to the
render boundary for one device. -/
def rendersForDevice (width height : ℚ) (d : Device) : List (ℚ × ℚ) :=
  match d.layouts with
  | some ls =>
    if 0 < ls.length then
      (evaluateImageLayouts width height ls).map fun c => (c.width, c.height)
    else [(d.width, d.height)]
  | none => [(d.width, d.height)]

/-- Embeds the control flow of processSourceV2 (src/processor-v2.ts lines
230-367) over the data the claims mention: blobExists is the value returned by
the external existence check for the fingerprint of the source, width and height
are the source dimensions, and the second component lists the resize requests
issued to the render boundary. -/
def processSourceV2 (blobExists : Bool) (width height : ℚ) (devices : List Device) :
    ProcessingResult × List (ℚ × ℚ) :=
  if blobExists then ({ status := Status.duplicate, variants := [] }, [])
  else
    ({ status := Status.processed
       variants := devices.flatMap (variantsForDevice width height) },
     devices.flatMap (rendersForDevice width height))

/-- Embeds the shard filter of src/main.ts line 123:
allImages.filter of index mod TASK_COUNT equal to TASK_INDEX. -/
def shard {α : Type} (l : List α) (taskIndex taskCount : ℕ) : List α :=
  ((l.enum).filter fun p => p.1 % taskCount == taskIndex).map Prod.snd

/-- Which backend failure endpoint the catch handler of src/main-v2.ts main
invokes. -/
inductive FailureEndpoint where
  | terminal
  | transient
deriving DecidableEq, Repr

/-- MAX_RETRIES of src/main-v2.ts line 181. -/
def maxRetries : ℕ := 3

/-- TASK_ATTEMPT of src/main-v2.ts line 182: the 0-based scheduler
CLOUD_RUN_TASK_ATTEMPT counter plus one. -/
def taskAttempt (cloudRunTaskAttempt : ℕ) : ℕ := cloudRunTaskAttempt + 1

/-- The failure-report branch of the catch handler in src/main-v2.ts lines
262-281: reportMaxRetriesFailed when TASK_ATTEMPT is at least MAX_RETRIES,
otherwise reportTransientFailure. -/
def failureReport (cloudRunTaskAttempt : ℕ) : FailureEndpoint :=
  if maxRetries ≤ taskAttempt cloudRunTaskAttempt then FailureEndpoint.terminal
  else FailureEndpoint.transient

/-- Layout kinds of the Layout Evaluator geometry derivation in the spec. -/
inductive LayoutKind where
  | single
  | paired
  | triple
deriving DecidableEq, Repr

/-- Device geometry of the Layout Evaluator in the spec. -/
structure DeviceGeometry where
  width : ℚ
  height : ℚ
  gap : ℚ
deriving DecidableEq, Repr

/-- Modelled from the spec: the per-layout target-geometry derivation of the
Layout Evaluator (spec section 4.3) splits the longer logical axis of the device
into count parts after subtracting the internal gaps. This derivation is not
present under src/ (the repository README records that layout detection moved
to the backend); only the derived layout records it produces are consumed by
src/processor-v2.ts. -/
def splitTarget (count : ℕ) (d : DeviceGeometry) : ℚ × ℚ :=
  let totalGap := ((count : ℚ) - 1) * d.gap
  if d.height > d.width then
    (d.width, ((⌊(d.height - totalGap) / (count : ℚ)⌋ : ℤ) : ℚ))
  else
    (((⌊(d.width - totalGap) / (count : ℚ)⌋ : ℤ) : ℚ), d.height)

/-- Modelled from the spec: target dimensions of each layout kind
(spec section 4.3): single is the full device, paired splits in two with one
gap, triple splits in three with two gaps. -/
def layoutTarget : LayoutKind → DeviceGeometry → ℚ × ℚ
  | LayoutKind.single, d => (d.width, d.height)
  | LayoutKind.paired, d => splitTarget 2 d
  | LayoutKind.triple, d => splitTarget 3 d

/-! Helper lemmas -/

theorem mergeSort_pair {α : Type} (le : α → α → Bool) (a b : α) :
    List.mergeSort [a, b] le = if le a b then [a, b] else [b, a] := by
  rw [List.mergeSort]
  by_cases h : le a b
  · simp [List.splitInTwo, List.splitAt_eq, List.cons_merge_cons, h]
  · simp [List.splitInTwo, List.splitAt_eq, List.cons_merge_cons, h]

theorem evaluateImageLayouts_eq (w h : ℚ) (layouts : List Layout) :
    evaluateImageLayouts w h layouts
      = ((layouts.filter (passesAspect (w / h))).map (mkCandidate w h)).mergeSort
          candidateLE := by
  cases layouts with
  | nil => simp [evaluateImageLayouts]
  | cons a l => rfl

theorem candidateLE_trans (a b c : LayoutCandidate) :
    candidateLE a b → candidateLE b c → candidateLE a c := by
  unfold candidateLE
  intro hab hbc
  exact decide_eq_true (le_trans (of_decide_eq_true hab) (of_decide_eq_true hbc))

theorem candidateLE_total (a b : LayoutCandidate) :
    candidateLE a b || candidateLE b a := by
  unfold candidateLE
  rcases le_total a.cropPercentage b.cropPercentage with h | h <;> simp [h]

theorem mergeSort_filter_eq {α : Type} (le : α → α → Bool)
    (htrans : ∀ a b c, le a b → le b c → le a c)
    (htotal : ∀ a b, le a b || le b a)
    (p : α → Bool) (hp : ∀ a b, p a → p b → le a b)
    (l : List α) :
    (l.mergeSort le).filter p = l.filter p := by
  have hpw : (l.filter p).Pairwise fun a b => le a b := by
    induction l with
    | nil => simp
    | cons a l ih =>
      by_cases ha : p a
      · rw [List.filter_cons_of_pos ha]
        exact List.Pairwise.cons (fun b hb => hp a b ha (List.of_mem_filter hb)) ih
      · rw [List.filter_cons_of_neg (by simpa using ha)]
        exact ih
  have h1 : List.Sublist (l.filter p) (l.mergeSort le) :=
    List.sublist_mergeSort htrans htotal hpw (List.filter_sublist l)
  have h2 := h1.filter p
  rw [List.filter_filter] at h2
  have h2' : List.Sublist (l.filter p) ((l.mergeSort le).filter p) := by
    simpa [Bool.and_self] using h2
  have h3 : ((l.mergeSort le).filter p).length = (l.filter p).length :=
    ((List.mergeSort_perm l le).filter p).length_eq
  exact (h2'.eq_of_length h3.symm).symm

/-! Claim theorems -/

/-- C6: for all positive source and target dimensions, calculateCropPercentage
equals the piecewise crop-cost definition of the spec (zero when the ratios differ
by less than 0.001, otherwise the clipped fraction of the constrained
dimension of the scaled source, times 100). -/
theorem c6_crop_cost_matches_spec (sw sh tw th : ℚ)
    (h1 : 0 < sw) (h2 : 0 < sh) (h3 : 0 < tw) (h4 : 0 < th) :
    calculateCropPercentage sw sh tw th = cropCostPercentSpec sw sh tw th := rfl

/-- Witness for c6_crop_cost_matches_spec at 500x1000 against 1920x1080. -/
theorem c6_crop_cost_matches_spec_witness :
    (0:ℚ) < 500 ∧ (0:ℚ) < 1000 ∧ (0:ℚ) < 1920 ∧ (0:ℚ) < 1080 ∧
    calculateCropPercentage 500 1000 1920 1080 = cropCostPercentSpec 500 1000 1920 1080 :=
  ⟨by norm_num, by norm_num, by norm_num, by norm_num,
   c6_crop_cost_matches_spec 500 1000 1920 1080
     (by norm_num) (by norm_num) (by norm_num) (by norm_num)⟩

/-- C7: for positive w and h, determineOrientation returns square exactly when
the ratio is within the open 5 percent band around 1, otherwise landscape for
w greater than h and portrait for w at most h; the boundary ratios 1.05 and
0.95 classify as landscape and portrait respectively. -/
theorem c7_orientation_classification (w h : ℚ) (hw : 0 < w) (hh : 0 < h) :
    (determineOrientation w h = Orientation.square ↔ |w / h - 1| < 0.05) ∧
    (¬ |w / h - 1| < 0.05 →
      determineOrientation w h
        = if w > h then Orientation.landscape else Orientation.portrait) ∧
    (w / h = 1.05 → determineOrientation w h = Orientation.landscape) ∧
    (w / h = 0.95 → determineOrientation w h = Orientation.portrait) := by
  have hne : h ≠ 0 := ne_of_gt hh
  refine ⟨?_, ?_, ?_, ?_⟩
  · unfold determineOrientation
    split_ifs with hsq hgt <;> simp_all
  · intro hns
    unfold determineOrientation
    rw [if_neg hns]
  · intro hr
    have hlt : ¬ |w / h - 1| < 0.05 := by rw [hr]; norm_num [abs_lt]
    have hw' : w = 1.05 * h := by
      rw [div_eq_iff hne] at hr
      exact hr
    have hwh : w > h := by rw [hw']; linarith
    unfold determineOrientation
    rw [if_neg hlt, if_pos hwh]
  · intro hr
    have hlt : ¬ |w / h - 1| < 0.05 := by rw [hr]; norm_num [abs_lt]
    have hw' : w = 0.95 * h := by
      rw [div_eq_iff hne] at hr
      exact hr
    have hwh : ¬ w > h := by rw [hw']; linarith
    unfold determineOrientation
    rw [if_neg hlt, if_neg hwh]

/-- Witness for c7_orientation_classification at the boundary ratios 21/20
and 19/20. -/
theorem c7_orientation_classification_witness :
    determineOrientation 21 20 = Orientation.landscape ∧
    determineOrientation 19 20 = Orientation.portrait :=
  ⟨(c7_orientation_classification 21 20 (by norm_num) (by norm_num)).2.2.1 (by norm_num),
   (c7_orientation_classification 19 20 (by norm_num) (by norm_num)).2.2.2 (by norm_num)⟩

/-- C10: for strictly positive source and target dimensions
calculateCropPercentage is nonnegative and strictly below 100. -/
theorem c10_crop_cost_range (sw sh tw th : ℚ)
    (h1 : 0 < sw) (h2 : 0 < sh) (h3 : 0 < tw) (h4 : 0 < th) :
    0 ≤ calculateCropPercentage sw sh tw th ∧
    calculateCropPercentage sw sh tw th < 100 := by
  have hsr : 0 < sw / sh := div_pos h1 h2
  simp only [calculateCropPercentage]
  split_ifs with heq hgt
  · norm_num
  · have hu : 0 < th * (sw / sh) := mul_pos h4 hsr
    have htw : tw < th * (sw / sh) := by
      calc tw < sw / sh * th := (div_lt_iff h4).mp hgt
        _ = th * (sw / sh) := mul_comm _ _
    constructor
    · exact mul_nonneg (div_nonneg (by linarith) (le_of_lt hu)) (by norm_num)
    · have h5 : (th * (sw / sh) - tw) / (th * (sw / sh)) < 1 := by
        rw [div_lt_one hu]; linarith
      calc (th * (sw / sh) - tw) / (th * (sw / sh)) * 100
          < 1 * 100 := mul_lt_mul_of_pos_right h5 (by norm_num)
        _ = 100 := by norm_num
  · have hlt : sw / sh < tw / th := by
      rcases lt_or_eq_of_le (not_lt.mp hgt) with hc | hc
      · exact hc
      · exfalso; apply heq; rw [hc]; norm_num
    have hu : 0 < tw / (sw / sh) := div_pos h3 hsr
    have hth : th < tw / (sw / sh) := by
      have hmul : sw / sh * th < tw := (lt_div_iff h4).mp hlt
      rw [lt_div_iff hsr]
      calc th * (sw / sh) = sw / sh * th := mul_comm _ _
        _ < tw := hmul
    constructor
    · exact mul_nonneg (div_nonneg (by linarith) (le_of_lt hu)) (by norm_num)
    · have h5 : (tw / (sw / sh) - th) / (tw / (sw / sh)) < 1 := by
        rw [div_lt_one hu]; linarith
      calc (tw / (sw / sh) - th) / (tw / (sw / sh)) * 100
          < 1 * 100 := mul_lt_mul_of_pos_right h5 (by norm_num)
        _ = 100 := by norm_num

/-- Witness for c10_crop_cost_range at a 2x1 source against a 1x1 target. -/
theorem c10_crop_cost_range_witness :
    0 ≤ calculateCropPercentage 2 1 1 1 ∧ calculateCropPercentage 2 1 1 1 < 100 :=
  c10_crop_cost_range 2 1 1 1 (by norm_num) (by norm_num) (by norm_num) (by norm_num)

/-- C4: the catch handler reports to exactly one endpoint per failed attempt:
the terminal endpoint exactly when the 1-based attempt number (the 0-based
scheduler counter plus one) has reached maxAttempts = 3, and the transient
endpoint otherwise; never both. -/
theorem c4_failure_report_exclusive (c : ℕ) :
    (failureReport c = FailureEndpoint.terminal ↔ 3 ≤ taskAttempt c) ∧
    (failureReport c = FailureEndpoint.transient ↔ taskAttempt c < 3) ∧
    ¬ (failureReport c = FailureEndpoint.terminal ∧
       failureReport c = FailureEndpoint.transient) := by
  unfold failureReport maxRetries taskAttempt
  split_ifs with hc <;> simp_all <;> omega

/-- C5: when the external existence check returns true for the fingerprint of
the source, processSourceV2 returns a duplicate result with an empty variant
list and issues no render request, for any source dimensions and any device
list. -/
theorem c5_duplicate_short_circuit (w h : ℚ) (devices : List Device) :
    processSourceV2 true w h devices
      = ({ status := Status.duplicate, variants := [] }, []) := rfl

/-- C8: the candidate list returned by evaluateImageLayouts is sorted
ascending by crop cost, candidates of equal crop cost keep their evaluation
order (the filter at any fixed cost equals the pre-sort filter), and in the
concrete two-candidate case with costs 20 and 5 the cost-5 candidate comes
first. -/
theorem c8_layout_ranking_sorted_stable (w h : ℚ) (layouts : List Layout) :
    (evaluateImageLayouts w h layouts).Pairwise
        (fun a b => a.cropPercentage ≤ b.cropPercentage) ∧
    (∀ c : ℚ,
       (evaluateImageLayouts w h layouts).filter (fun x => x.cropPercentage == c)
         = ((layouts.filter (passesAspect (w / h))).map (mkCandidate w h)).filter
             (fun x => x.cropPercentage == c)) ∧
    (evaluateImageLayouts 100 100
        [⟨"single", 80, 100, none, none⟩, ⟨"single", 95, 100, none, none⟩]).map
      (fun c => c.cropPercentage) = [5, 20] := by
  refine ⟨?_, ?_, ?_⟩
  · rw [evaluateImageLayouts_eq]
    have hs := List.sorted_mergeSort
      candidateLE_trans candidateLE_total
      ((layouts.filter (passesAspect (w / h))).map (mkCandidate w h))
    exact hs.imp fun hab => of_decide_eq_true hab
  · intro c
    rw [evaluateImageLayouts_eq]
    apply mergeSort_filter_eq candidateLE candidateLE_trans candidateLE_total
    intro a b ha hb
    have ha' : a.cropPercentage = c := by simpa using ha
    have hb' : b.cropPercentage = c := by simpa using hb
    simp [candidateLE, ha', hb']
  · rw [evaluateImageLayouts_eq]
    have hfm :
        ((([⟨"single", 80, 100, none, none⟩,
            ⟨"single", 95, 100, none, none⟩] : List Layout).filter
              (passesAspect ((100 : ℚ) / 100))).map (mkCandidate 100 100))
          = [⟨"single", 80, 100, 20⟩, ⟨"single", 95, 100, 5⟩] := by
      norm_num [passesAspect, mkCandidate, List.filter, calculateCropPercentage, abs_lt]
    rw [hfm, mergeSort_pair]
    norm_num [candidateLE]

/-- C9: evaluateImageLayouts emits candidates only for layouts whose declared
aspect-ratio bounds admit the source ratio: every returned candidate comes
from a layout whose bounds hold, a layout with a minAspectRatio above the
source ratio yields no candidate, and a layout with a maxAspectRatio below
the source ratio yields no candidate. -/
theorem c9_aspect_ratio_eligibility (w h : ℚ) (layouts : List Layout) :
    (∀ c ∈ evaluateImageLayouts w h layouts,
       ∃ l ∈ layouts, c = mkCandidate w h l ∧
         (∀ m, l.minAspectRatio = some m → m ≤ w / h) ∧
         (∀ M, l.maxAspectRatio = some M → w / h ≤ M)) ∧
    (∀ l : Layout, ∀ m, l.minAspectRatio = some m → w / h < m →
       evaluateImageLayouts w h [l] = []) ∧
    (∀ l : Layout, ∀ M, l.maxAspectRatio = some M → M < w / h →
       evaluateImageLayouts w h [l] = []) := by
  refine ⟨?_, ?_, ?_⟩
  · intro c hc
    rw [evaluateImageLayouts_eq, List.mem_mergeSort] at hc
    obtain ⟨l, hl, rfl⟩ := List.mem_map.mp hc
    obtain ⟨hl_mem, hl_pass⟩ := List.mem_filter.mp hl
    rw [passesAspect, Bool.and_eq_true] at hl_pass
    obtain ⟨hmin, hmax⟩ := hl_pass
    refine ⟨l, hl_mem, rfl, ?_, ?_⟩
    · intro m hm
      rw [hm] at hmin
      simpa [not_lt] using hmin
    · intro M hM
      rw [hM] at hmax
      simpa [not_lt] using hmax
  · intro l m hm hlt
    rw [evaluateImageLayouts_eq]
    have hp : passesAspect (w / h) l = false := by
      rw [passesAspect, hm]
      simp [hlt]
    simp [List.filter, hp]
  · intro l M hM hgt
    rw [evaluateImageLayouts_eq]
    have hp : passesAspect (w / h) l = false := by
      rw [passesAspect, hM]
      simp [hgt, Bool.and_eq_false_iff]
    simp [List.filter, hp]

/-- Witness for c9_aspect_ratio_eligibility: a layout with minAspectRatio 1
yields nothing for a ratio-1/2 source, and a layout with maxAspectRatio 2
yields nothing for a ratio-4 source. -/
theorem c9_aspect_ratio_eligibility_witness :
    evaluateImageLayouts 1 2 [⟨"single", 10, 10, some 1, none⟩] = [] ∧
    evaluateImageLayouts 4 1 [⟨"single", 10, 10, none, some 2⟩] = [] :=
  ⟨(c9_aspect_ratio_eligibility 1 2 [⟨"single", 10, 10, some 1, none⟩]).2.1
     ⟨"single", 10, 10, some 1, none⟩ 1 rfl (by norm_num),
   (c9_aspect_ratio_eligibility 4 1 [⟨"single", 10, 10, none, some 2⟩]).2.2
     ⟨"single", 10, 10, none, some 2⟩ 2 rfl (by norm_num)⟩

/-- C1 counterexample: the claim says a 500x1000 source evaluated against a
1920x1080 single layout yields no candidate because its crop cost exceeds 50
percent; in the code the evaluator applies no crop-cost threshold and this
evaluation returns a (single) candidate. -/
theorem c1_threshold_counterexample :
    evaluateImageLayouts 500 1000 [⟨"single", 1920, 1080, none, none⟩] ≠ [] := by
  have h : evaluateImageLayouts 500 1000 [⟨"single", 1920, 1080, none, none⟩]
      = [⟨"single", 1920, 1080, 575 / 8⟩] := by
    rw [evaluateImageLayouts_eq]
    norm_num [passesAspect, mkCandidate, List.filter, calculateCropPercentage, abs_lt]
  rw [h]
  simp

/-- C1 amended: evaluateImageLayouts applies no crop-cost threshold; every
layout passing the aspect-ratio bounds yields a candidate whatever its crop
cost, the 500x1000 source against a 1920x1080 single layout yields exactly
one candidate with cost 575/8 (71.875 percent, well above 50), and
processSourceV2 renders one variant for it. -/
theorem c1_no_crop_cost_filter :
    (∀ (w h : ℚ) (layouts : List Layout),
        (evaluateImageLayouts w h layouts).length
          = (layouts.filter (passesAspect (w / h))).length) ∧
    evaluateImageLayouts 500 1000 [⟨"single", 1920, 1080, none, none⟩]
      = [⟨"single", 1920, 1080, 575 / 8⟩] ∧
    processSourceV2 false 500 1000
        [⟨1920, 1080, "landscape", some [⟨"single", 1920, 1080, none, none⟩]⟩]
      = ({ status := Status.processed,
           variants := [⟨1920, 1080, "landscape", "single"⟩] }, [(1920, 1080)]) := by
  have heval : evaluateImageLayouts 500 1000 [⟨"single", 1920, 1080, none, none⟩]
      = [⟨"single", 1920, 1080, 575 / 8⟩] := by
    rw [evaluateImageLayouts_eq]
    norm_num [passesAspect, mkCandidate, List.filter, calculateCropPercentage, abs_lt]
  refine ⟨?_, heval, ?_⟩
  · intro w h layouts
    rw [evaluateImageLayouts_eq, List.length_mergeSort, List.length_map]
  · have hor : determineOrientation 1920 1080 = Orientation.landscape := by
      norm_num [determineOrientation, abs_lt]
    simp [processSourceV2, variantsForDevice, rendersForDevice, heval,
      layoutVariant, orientationString, hor]

/-- C2: the spec-modelled layout target derivation splits the longer device
axis: for a tall device the paired target is the full width with height
floor of (H - g)/2 and the triple target is the full width with height
floor of (H - 2g)/3; otherwise the width is split the same way and the
height kept. -/
theorem c2_split_target_geometry (W H g : ℚ) :
    (H > W →
      layoutTarget LayoutKind.paired ⟨W, H, g⟩ = (W, ((⌊(H - g) / 2⌋ : ℤ) : ℚ))) ∧
    (¬ H > W →
      layoutTarget LayoutKind.paired ⟨W, H, g⟩ = (((⌊(W - g) / 2⌋ : ℤ) : ℚ), H)) ∧
    (H > W →
      layoutTarget LayoutKind.triple ⟨W, H, g⟩ = (W, ((⌊(H - 2 * g) / 3⌋ : ℤ) : ℚ))) ∧
    (¬ H > W →
      layoutTarget LayoutKind.triple ⟨W, H, g⟩ = (((⌊(W - 2 * g) / 3⌋ : ℤ) : ℚ), H)) := by
  refine ⟨?_, ?_, ?_, ?_⟩ <;> intro hc <;> norm_num [layoutTarget, splitTarget, hc]

/-- Witness for c2_split_target_geometry on a tall 10x20 device and a wide
20x10 device, both with gap 2. -/
theorem c2_split_target_geometry_witness :
    layoutTarget LayoutKind.paired ⟨10, 20, 2⟩ = (10, ((⌊((20 : ℚ) - 2) / 2⌋ : ℤ) : ℚ)) ∧
    layoutTarget LayoutKind.triple ⟨20, 10, 2⟩
      = (((⌊((20 : ℚ) - 2 * 2) / 3⌋ : ℤ) : ℚ), 10) :=
  ⟨(c2_split_target_geometry 10 20 2).1 (by norm_num),
   (c2_split_target_geometry 20 10 2).2.2.2 (by norm_num)⟩

theorem countP_flatMap_sum {β : Type} (ts : List ℕ) (f : ℕ → List β) (q : β → Bool) :
    ((ts.flatMap f).countP q) = (ts.map fun t => (f t).countP q).sum := by
  induction ts with
  | nil => rfl
  | cons t ts ih => simp [List.flatMap_cons, ih]

theorem sum_ite_range (K m c : ℕ) :
    ((List.range K).map fun t => if m = t then c else 0).sum
      = if m < K then c else 0 := by
  induction K with
  | zero => simp
  | succ K ih =>
    rw [List.range_succ, List.map_append, List.sum_append, ih]
    by_cases h1 : m < K
    · have h2 : m ≠ K := Nat.ne_of_lt h1
      simp [h1, h2, Nat.lt_succ_of_lt h1]
    · by_cases h2 : m = K
      · simp [h1, h2, Nat.lt_succ_self]
      · have h3 : ¬ m < K + 1 := by omega
        simp [h1, h2, h3]

/-- C3: for a shard count of at least 1 and a batch without duplicates, the
positional shards are pairwise disjoint and their union over task indices
0..K-1 is a permutation of the original batch (each element exactly once). -/
theorem c3_shard_partition {α : Type} [DecidableEq α] (l : List α) (K : ℕ)
    (hK : 1 ≤ K) (hnd : l.Nodup) :
    (∀ t₁ t₂, t₁ ≠ t₂ → ∀ x, x ∈ shard l t₁ K → x ∉ shard l t₂ K) ∧
    List.Perm ((List.range K).flatMap fun t => shard l t K) l := by
  constructor
  · intro t₁ t₂ hne x hx₁ hx₂
    obtain ⟨p, hp, hpx⟩ := List.mem_map.mp hx₁
    obtain ⟨q, hq, hqx⟩ := List.mem_map.mp hx₂
    obtain ⟨hpE, hpT⟩ := List.mem_filter.mp hp
    obtain ⟨hqE, hqT⟩ := List.mem_filter.mp hq
    obtain ⟨hplt, hpe⟩ := List.getElem?_eq_some_iff.mp (List.mem_enum_iff_getElem?.mp hpE)
    obtain ⟨hqlt, hqe⟩ := List.getElem?_eq_some_iff.mp (List.mem_enum_iff_getElem?.mp hqE)
    have hxx : l[p.1] = l[q.1] := by rw [hpe, hqe, hpx, hqx]
    have hidx : p.1 = q.1 := (hnd.getElem_inj_iff).mp hxx
    apply hne
    have ht₁ : p.1 % K = t₁ := by simpa using hpT
    have ht₂ : q.1 % K = t₂ := by simpa using hqT
    rw [← ht₁, ← ht₂, hidx]
  · have hmapped :
        ((List.range K).flatMap fun t => shard l t K)
          = ((List.range K).flatMap fun t =>
              (l.enum.filter fun p => p.1 % K == t)).map Prod.snd := by
      simp only [shard]
      rw [List.map_flatMap]
    rw [hmapped]
    have hperm :
        List.Perm
          ((List.range K).flatMap fun t => l.enum.filter fun p => p.1 % K == t)
          l.enum := by
      rw [List.perm_iff_count]
      intro p
      show List.countP (fun x => decide (x = p))
            ((List.range K).flatMap fun t => l.enum.filter fun q => q.1 % K == t)
          = List.countP (fun x => decide (x = p)) l.enum
      rw [countP_flatMap_sum]
      trans ((List.range K).map fun t =>
        if p.1 % K = t then l.enum.countP (fun x => decide (x = p)) else 0).sum
      · congr 1
        apply List.map_congr_left
        intro t _
        by_cases hpt : p.1 % K = t
        · rw [if_pos hpt, List.countP_filter]
          apply List.countP_congr
          intro x _
          constructor
          · intro hx
            exact ((Bool.and_eq_true _ _).mp hx).1
          · intro hx
            have hxp : x = p := of_decide_eq_true hx
            refine (Bool.and_eq_true _ _).mpr ⟨hx, ?_⟩
            simp [hxp, hpt]
        · rw [if_neg hpt, List.countP_eq_zero]
          intro x hx hq
          have hxp : x = p := of_decide_eq_true hq
          have ht : x.1 % K = t := by
            simpa using (List.mem_filter.mp hx).2
          rw [hxp] at ht
          exact hpt ht
      · rw [sum_ite_range,
          if_pos (Nat.mod_lt _ (Nat.lt_of_lt_of_le Nat.zero_lt_one hK))]
    have := hperm.map Prod.snd
    rwa [List.enum_map_snd] at this

/-- Witness for c3_shard_partition on the batch [3, 1, 4] with 2 shards. -/
theorem c3_shard_partition_witness :
    ((3 : ℕ) ∉ shard [3, 1, 4] 1 2) ∧
    List.Perm ((List.range 2).flatMap fun t => shard [(3 : ℕ), 1, 4] t 2) [3, 1, 4] :=
  ⟨(c3_shard_partition [3, 1, 4] 2 (by norm_num) (by simp)).1 0 1 (by norm_num) 3
     (by simp [shard, List.enum]),
   (c3_shard_partition [3, 1, 4] 2 (by norm_num) (by simp)).2⟩

end SlideshowProcessor
